import Mathlib

/-!
Verification of the corpus search tool in `scrape_licenses.py`.

The development shallowly embeds the program's core: the corpus loader
(`load_local_licenses`), the paragraph segmentation performed by
`re.split(r'\n\s*\n', text)`, the pattern matcher (`re.search` with
`re.IGNORECASE`, modelled for the fragment of the host regex syntax the
verification exercises), the search-and-report routine (`search_and_save`),
the folder-name sanitizer (`sanitize_for_foldername`), and one iteration of
the interactive session loop in `main`.

Strings are handled as lists of characters; whitespace and case folding are
modelled on the ASCII range, which the host library's behaviour restricts to
on the inputs considered here.
-/

namespace Scrape

/-- ASCII whitespace, modelling the characters Python's `str.strip()` and the
`\s` class recognise in the ASCII range: space, tab, newline, carriage
return, vertical tab and form feed. -/
def pyIsSpace (c : Char) : Bool :=
  c = ' ' || c = '\t' || c = '\n' || c = '\r' || c = '\x0b' || c = '\x0c'

/-- Model of `str.strip()` on a character list: drop whitespace from both ends. -/
def pyStripList (cs : List Char) : List Char :=
  ((cs.dropWhile pyIsSpace).reverse.dropWhile pyIsSpace).reverse

/-- Model of `str.strip()` on a string. -/
def pyStrip (s : String) : String :=
  ⟨pyStripList s.data⟩

/-- ASCII lowercasing of one character, modelling `str.lower()` and the
effect of `re.IGNORECASE` on the ASCII range. -/
def lowerChar (c : Char) : Char :=
  match c with
  | 'A' => 'a' | 'B' => 'b' | 'C' => 'c' | 'D' => 'd' | 'E' => 'e'
  | 'F' => 'f' | 'G' => 'g' | 'H' => 'h' | 'I' => 'i' | 'J' => 'j'
  | 'K' => 'k' | 'L' => 'l' | 'M' => 'm' | 'N' => 'n' | 'O' => 'o'
  | 'P' => 'p' | 'Q' => 'q' | 'R' => 'r' | 'S' => 's' | 'T' => 't'
  | 'U' => 'u' | 'V' => 'v' | 'W' => 'w' | 'X' => 'x' | 'Y' => 'y'
  | 'Z' => 'z'
  | c => c

/-- Model of `str.lower()` on a string. -/
def pyLowerStr (s : String) : String :=
  ⟨s.data.map lowerChar⟩

/-! ### Paragraph segmentation: `re.split(r'\n\s*\n', license_text)`

The host regex engine finds the leftmost match of `\n\s*\n`: a newline, a
greedy run of whitespace, then a final newline found by backtracking — i.e.
the separator runs from a newline to the last newline inside the maximal
whitespace run that follows it. `sepRem` recognises such a separator at the
head of the list and returns the text after it. -/

/-- Index of the last newline in `run`, if any. -/
def lastNewlineIdx (run : List Char) : Option Nat :=
  match run.reverse.findIdx? (fun c => c = '\n') with
  | some k => some (run.length - 1 - k)
  | none => none

/-- If a match of `\n\s*\n` starts at the head of `cs`, return the remainder
of `cs` after that (greedy, leftmost) match. -/
def sepRem (cs : List Char) : Option (List Char) :=
  match cs with
  | '\n' :: rest =>
    match lastNewlineIdx (rest.takeWhile pyIsSpace) with
    | some j => some (rest.drop (j + 1))
    | none => none
  | _ => none

/-- One scanning step of `re.split`: emit a part at each separator, else
advance one character, accumulating the current part in `acc` (reversed).
The fuel argument makes the recursion structural; each step consumes at
least one character, so fuel `cs.length + 1` never runs out. -/
def pySplitGoF : Nat → List Char → List Char → List (List Char)
  | 0, acc, cs => [acc.reverse ++ cs]
  | fuel + 1, acc, cs =>
    match sepRem cs with
    | some rem => acc.reverse :: pySplitGoF fuel [] rem
    | none =>
      match cs with
      | [] => [acc.reverse]
      | c :: rest => pySplitGoF fuel (c :: acc) rest

/-- The segmenter `paragraphs = re.split(r'\n\s*\n', license_text)` (line 63). -/
def pySplitParas (s : String) : List String :=
  (pySplitGoF (s.data.length + 1) [] s.data).map (fun cs => ⟨cs⟩)

/-! ### Pattern matching: `re.search(search_term, clean_para, re.IGNORECASE)`

The matcher models the host regex engine on the fragment of its syntax the
verification exercises: literal characters, the wildcard `.` (which matches
any character except a newline), and the postfix repetition `*`.  Other
metacharacters, and a `*` with nothing before it to repeat, are reported as
compile failures — as the host engine reports `*` at the start of a
pattern.  `re.IGNORECASE` is modelled by comparing characters through
ASCII lowercasing. -/

/-- A regex atom: a literal character or the wildcard `.`. -/
inductive RAtom where
  | rchar (c : Char)
  | rdot
deriving DecidableEq

/-- A compiled pattern piece: an atom, possibly starred (`a*`, `.*`). -/
structure RPiece where
  atom : RAtom
  starred : Bool
deriving DecidableEq

/-- Metacharacters of the host syntax outside the modelled fragment; a
pattern using them is treated as failing to compile. -/
def unsupportedMeta (c : Char) : Bool :=
  c = '(' || c = ')' || c = '[' || c = ']' || c = '{' || c = '}' ||
  c = '+' || c = '?' || c = '|' || c = '^' || c = '$' || c = '\\'

/-- Compile a pattern string into pieces; `none` models `re.error`.
A leading `*` has nothing to repeat and fails to compile, as in the host
engine. -/
def compilePat : List Char → Option (List RPiece)
  | [] => some []
  | '*' :: _ => none
  | c :: '*' :: cs' =>
    if unsupportedMeta c then none
    else (compilePat cs').map (⟨if c = '.' then .rdot else .rchar c, true⟩ :: ·)
  | c :: cs =>
    if unsupportedMeta c then none
    else (compilePat cs).map (⟨if c = '.' then .rdot else .rchar c, false⟩ :: ·)

/-- Whether an atom matches one character, case-insensitively; `.` matches
anything but a newline. -/
def atomMatches : RAtom → Char → Bool
  | .rchar c, x => lowerChar c = lowerChar x
  | .rdot, x => x ≠ '\n'

/-- Whether the pieces match a prefix of the text (with backtracking for
starred pieces).  Each recursive call shrinks `ps.length + xs.length`, so
fuel `ps.length + xs.length + 1` never runs out. -/
def matchPcsF : Nat → List RPiece → List Char → Bool
  | 0, _, _ => false
  | _ + 1, [], _ => true
  | fuel + 1, ⟨a, false⟩ :: ps, xs =>
    match xs with
    | [] => false
    | x :: xs' => atomMatches a x && matchPcsF fuel ps xs'
  | fuel + 1, ⟨a, true⟩ :: ps, xs =>
    matchPcsF fuel ps xs ||
      (match xs with
       | [] => false
       | x :: xs' => atomMatches a x && matchPcsF fuel (⟨a, true⟩ :: ps) xs')

/-- The pieces match at the start of `cs`. -/
def matchTop (ps : List RPiece) (cs : List Char) : Bool :=
  matchPcsF (ps.length + cs.length + 1) ps cs

/-- Model of `re.search`: scan left to right for a position where the pattern
matches. -/
def searchGo (ps : List RPiece) : List Char → Bool
  | [] => matchTop ps []
  | c :: rest => matchTop ps (c :: rest) || searchGo ps rest

/-! ### The search engine: `search_and_save` (lines 50-78) -/

/-- A corpus entry: `{'licenseId': ..., 'licenseText': ...}` built by
`load_local_licenses`. -/
structure License where
  licenseId : String
  licenseText : String
deriving DecidableEq

/-- One row written by `csv_writer.writerow([license_id, prev_para,
clean_para, next_para])` (line 76). -/
structure MatchRecord where
  licenseId : String
  before : String
  matched : String
  after : String
deriving DecidableEq

/-- Whether the loop body at lines 66-71 fires for paragraph `p`: the
stripped paragraph is non-empty (`if not clean_para: continue`) and
`re.search(search_term, clean_para, re.IGNORECASE)` finds a match. -/
def paraHit (ps : List RPiece) (p : String) : Bool :=
  if pyStrip p = "" then false else searchGo ps (pyStrip p).data

/-- The row built at lines 73-76 for the paragraph at index `i`:
`prev_para = paragraphs[i-1].strip() if i > 0 else "N/A"` and
`next_para = paragraphs[i+1].strip() if i < len(paragraphs)-1 else "N/A"`. -/
def mkRecordAt (lid : String) (paras : List String) (i : Nat) : MatchRecord :=
  { licenseId := lid
    before := if 0 < i then pyStrip (paras.getD (i - 1) "") else "N/A"
    matched := pyStrip (paras.getD i "")
    after := if i < paras.length - 1 then pyStrip (paras.getD (i + 1) "") else "N/A" }

/-- The row the loop emits at paragraph index `i`, if any. -/
def recordAt (ps : List RPiece) (lid : String) (paras : List String) (i : Nat) :
    Option MatchRecord :=
  if paraHit ps (paras.getD i "") then some (mkRecordAt lid paras i) else none

/-- All rows emitted for one document, paragraph indices in order
(`for i, para in enumerate(paragraphs)`). -/
def docRecords (ps : List RPiece) (lic : License) : List MatchRecord :=
  let paras := pySplitParas lic.licenseText
  (List.range paras.length).filterMap (recordAt ps lic.licenseId paras)

/-- All rows emitted over the corpus, documents in load order
(`for license_info in licenses_data`). -/
def searchRecords (licenses : List License) (ps : List RPiece) : List MatchRecord :=
  licenses.flatMap (docRecords ps)

/-- The counter `found_count`: incremented by 1 exactly once per paragraph for which the
match branch fires (line 71). -/
def searchCount (licenses : List License) (ps : List RPiece) : Nat :=
  (licenses.map
    (fun lic => ((pySplitParas lic.licenseText).filter (paraHit ps)).length)).sum

/-- Whether a document has a paragraph surviving the `if not clean_para`
check — i.e. whether `re.search` is ever invoked on it. -/
def hasRealPara (lic : License) : Bool :=
  (pySplitParas lic.licenseText).any (fun p => pyStrip p ≠ "")

/-- The routine `search_and_save(licenses_data, search_term, csv_writer)`: strips the
term (line 57), then scans every paragraph of every document.  An invalid
pattern raises `re.error` at the first `re.search` call — i.e. iff some
document has a non-empty paragraph — before any row is written; this is
modelled by `Except.error ()`.  Otherwise returns the emitted rows and
`found_count`. -/
def search_and_save (licenses : List License) (searchTerm : String) :
    Except Unit (List MatchRecord × Nat) :=
  match compilePat (pyStrip searchTerm).data with
  | some ps => .ok (searchRecords licenses ps, searchCount licenses ps)
  | none =>
    if licenses.any hasRealPara then .error () else .ok ([], 0)

/-! ### The corpus loader: `load_local_licenses` (lines 6-39) -/

/-- What `open(file_path, 'r', encoding='utf-8')` + `f.read()` yields for
one directory entry: its text, an `IOError` (e.g. permissions), or a
`UnicodeDecodeError` for bytes that are not valid UTF-8.  The distinction
matters: `UnicodeDecodeError` is a `ValueError`, not an `OSError`, so the
`except IOError` at line 31 does not catch it. -/
inductive FileRead where
  | ok (content : String)
  | ioError
  | decodeError
deriving DecidableEq

/-- One entry of `os.listdir(directory)`: a file name and what opening and
reading it yields. -/
structure DirEntry where
  name : String
  read : FileRead
deriving DecidableEq

/-- Model of `str.endswith(suffix)`. -/
def pyEndsWith (suffix s : String) : Bool :=
  suffix.data.isSuffixOf s.data

/-- Greatest index `j ≥ lo` of `cs` holding a dot, if any. -/
def lastDotFrom (cs : List Char) (lo : Nat) : Option Nat :=
  match cs.reverse.findIdx? (· = '.') with
  | some k =>
    if lo ≤ cs.length - 1 - k then some (cs.length - 1 - k) else none
  | none => none

/-- Model of `os.path.splitext(filename)[0]`: the name up to the last dot, where the
run of dots at the start of the name never counts as an extension
separator. -/
def pySplitextStem (n : String) : String :=
  match lastDotFrom n.data ((n.data.takeWhile (· = '.')).length) with
  | some j => ⟨n.data.take j⟩
  | none => n

/-- The `licenses_data` list accumulated by the loop at lines 18-32: each
`.txt` entry that reads successfully contributes a `License` keyed by the
file-name stem; a `.txt` entry whose read raises `IOError` is skipped
(lines 31-32); other files are ignored by the `endswith('.txt')` filter.
(A decode failure never contributes an entry either, but it also makes the
loop — and the process — die; see `load_local_licenses`.) -/
def loadedEntries (entries : List DirEntry) : List License :=
  entries.filterMap (fun e =>
    if pyEndsWith ".txt" e.name then
      match e.read with
      | .ok text => some ⟨pySplitextStem e.name, text⟩
      | .ioError => none
      | .decodeError => none
    else none)

/-- Whether reading entry `e` raises the `UnicodeDecodeError` the loop does
not catch: `e` passes the `endswith('.txt')` filter and its bytes are not
valid UTF-8. -/
def decodeCrash (e : DirEntry) : Bool :=
  match e.read with
  | .decodeError => pyEndsWith ".txt" e.name
  | _ => false

/-- The loader `load_local_licenses(directory)`: `Except.error ()` models
the uncaught `UnicodeDecodeError` — a `ValueError`, which the
`except IOError` at line 31 does not catch; it propagates out of the
function (which is called at line 85, outside any handler in `main`) and
terminates the process, aborting the whole load.  Otherwise `.ok none`
models the function's `return None` paths — the directory is missing
(`not os.path.isdir`), or no entries were collected
(`if not licenses_data`) — and `.ok (some data)` the successful load.
The argument is the listing `os.listdir` would produce, or `none` when the
directory does not exist. -/
def load_local_licenses (dir : Option (List DirEntry)) :
    Except Unit (Option (List License)) :=
  match dir with
  | none => .ok none
  | some entries =>
    if entries.any decodeCrash then .error ()
    else if loadedEntries entries = [] then .ok none
    else .ok (some (loadedEntries entries))

/-! ### The session controller: `sanitize_for_foldername` and `main`
(lines 42-47 and 81-123) -/

/-- The characters removed by `re.sub(r'[<>:"/\\|?*]', '', term)`. -/
def illegalFolderChar (c : Char) : Bool :=
  c = '<' || c = '>' || c = ':' || c = '"' || c = '/' || c = '\\' ||
  c = '|' || c = '?' || c = '*'

/-- The sanitizer `sanitize_for_foldername(term)`: remove the illegal characters, keep the
first 100 characters, strip. -/
def sanitize_for_foldername (term : String) : String :=
  pyStrip ⟨(term.data.filter (fun c => !illegalFolderChar c)).take 100⟩

/-- Model of `os.path.join(a, b)` on a POSIX host. -/
def pyPathJoin (a b : String) : String :=
  if b.data.head? = some '/' then b
  else if a = "" || a.data.getLast? = some '/' then a ++ b
  else a ++ "/" ++ b

/-- The folder `output_path = os.path.join('..', folder_name)` (line 99). -/
def outputPathFor (term : String) : String :=
  pyPathJoin ".." (sanitize_for_foldername term)

/-- The artifact `file_path = os.path.join(output_path, 'results.csv')` (line 102). -/
def filePathFor (term : String) : String :=
  pyPathJoin (outputPathFor term) "results.csv"

/-- The header row written at line 107. -/
def csvHeader : List String :=
  ["License ID", "Paragraph Before", "Paragraph with Hit", "Paragraph After"]

/-- The CSV row for one match record. -/
def recordRow (r : MatchRecord) : List String :=
  [r.licenseId, r.before, r.matched, r.after]

/-- Operator-facing messages printed by the loop body, in print order. -/
inductive Msg where
  | success
  | noResults
  | ioError
deriving DecidableEq

/-- How one loop iteration ends: back to the prompt, or the process dies of
an uncaught exception. -/
inductive StepEnd where
  | normal
  | crashed
deriving DecidableEq

/-- The observable outcome of one searching iteration: whether the output
folder and the `results.csv` inside it still exist afterwards, the rows the
artifact holds, the messages shown, and how the iteration ended. -/
structure StepResult where
  folderPresent : Bool
  artifactPresent : Bool
  artifactRows : List (List String)
  msgs : List Msg
  ended : StepEnd
deriving DecidableEq

/-- Outcome of one iteration of the `while True` loop in `main`. -/
inductive LoopOutcome where
  | exited
  | rejectedEmpty
  | completed (r : StepResult)
deriving DecidableEq

/-- One iteration of the loop in `main` (lines 90-120), starting with the
output folder absent.  In order: the exit-keyword check (line 91), the
empty-term check (line 93), `os.makedirs(output_path, exist_ok=True)`
creating the folder empty, `open(file_path, 'w')` creating `results.csv`
in it and writing the header row, then `search_and_save`.

An `re.error` from an invalid pattern is caught by neither `except IOError`
(line 119; `re.error` is not an `OSError`) nor `except KeyboardInterrupt`
(line 122), so it ends the process, leaving the folder and the header-only
file behind.

On zero matches the code prints the no-results message and calls
`os.rmdir(output_path)` (line 117); `os.rmdir` succeeds only on an empty
directory, and a failure raises an `OSError`, which `except IOError` does
catch (`IOError` is `OSError`), printing the write-error message. -/
def sessionStep (licenses : List License) (term : String) : LoopOutcome :=
  if pyLowerStr term = "exit" then .exited
  else if pyStrip term = "" then .rejectedEmpty
  else
    let folderFiles : List String := ["results.csv"]
    match search_and_save licenses term with
    | .error _ => .completed ⟨true, true, [csvHeader], [], .crashed⟩
    | .ok (recs, n) =>
      let rows := csvHeader :: recs.map recordRow
      if 0 < n then .completed ⟨true, true, rows, [.success], .normal⟩
      else if folderFiles.isEmpty then
        .completed ⟨false, false, [], [.noResults], .normal⟩
      else
        .completed ⟨true, true, rows, [.noResults, .ioError], .normal⟩

/-- Comparison definition following the spec's words for the alternative the
code deliberately does not take: a search for the term escaped to a literal
substring — true iff the term occurs verbatim (case-insensitively) as a
contiguous substring of the text. -/
def litOccursCI (pat text : List Char) : Bool :=
  (List.range (text.length + 1)).any
    (fun i => (pat.map lowerChar).isPrefixOf ((text.drop i).map lowerChar))

/-! ### Helper lemmas -/

theorem lowerChar_eq_newline {x : Char} (h : lowerChar x = '\n') : x = '\n' := by
  unfold lowerChar at h
  split at h <;> first | assumption | exact absurd h (by decide)

theorem atomMatches_congr (a : RAtom) {x y : Char}
    (h : lowerChar x = lowerChar y) : atomMatches a x = atomMatches a y := by
  cases a with
  | rchar c => simp only [atomMatches, h]
  | rdot =>
    have hiff : x = '\n' ↔ y = '\n' := by
      constructor
      · intro hx; exact lowerChar_eq_newline (by rw [← h, hx]; rfl)
      · intro hy; exact lowerChar_eq_newline (by rw [h, hy]; rfl)
    simp only [atomMatches, ne_eq]
    by_cases hx : x = '\n'
    · simp [hx, hiff.mp hx]
    · have hy : ¬y = '\n' := fun hy => hx (hiff.mpr hy)
      simp [hx, hy]

theorem matchPcsF_congr :
    ∀ (fuel : Nat) (ps : List RPiece) {xs ys : List Char},
      xs.map lowerChar = ys.map lowerChar →
      matchPcsF fuel ps xs = matchPcsF fuel ps ys := by
  intro fuel
  induction fuel with
  | zero => intro ps xs ys _; rfl
  | succ fuel ih =>
    intro ps xs ys h
    match ps with
    | [] => rfl
    | ⟨a, false⟩ :: ps =>
      match xs, ys with
      | [], [] => rfl
      | [], y :: ys => simp at h
      | x :: xs, [] => simp at h
      | x :: xs, y :: ys =>
        simp only [List.map_cons, List.cons.injEq] at h
        simp only [matchPcsF, atomMatches_congr a h.1, ih ps h.2]
    | ⟨a, true⟩ :: ps =>
      match xs, ys with
      | [], [] => rfl
      | [], y :: ys => simp at h
      | x :: xs, [] => simp at h
      | x :: xs, y :: ys =>
        simp only [List.map_cons, List.cons.injEq] at h
        have hxy : (x :: xs).map lowerChar = (y :: ys).map lowerChar := by
          rw [List.map_cons, List.map_cons, h.1, h.2]
        simp only [matchPcsF, ih ps hxy,
          atomMatches_congr a h.1, ih (⟨a, true⟩ :: ps) h.2]

theorem matchTop_congr (ps : List RPiece) {xs ys : List Char}
    (h : xs.map lowerChar = ys.map lowerChar) :
    matchTop ps xs = matchTop ps ys := by
  have hlen : xs.length = ys.length := by
    have := congrArg List.length h
    simpa using this
  unfold matchTop
  rw [hlen]
  exact matchPcsF_congr _ ps h

theorem searchGo_congr (ps : List RPiece) :
    ∀ {xs ys : List Char}, xs.map lowerChar = ys.map lowerChar →
      searchGo ps xs = searchGo ps ys := by
  intro xs
  induction xs with
  | nil =>
    intro ys h
    match ys with
    | [] => rfl
    | y :: ys => simp at h
  | cons x xs ih =>
    intro ys h
    match ys with
    | [] => simp at h
    | y :: ys =>
      simp only [List.map_cons, List.cons.injEq] at h
      have hxy : (x :: xs).map lowerChar = (y :: ys).map lowerChar := by
        rw [List.map_cons, List.map_cons, h.1, h.2]
      simp only [searchGo, matchTop_congr ps hxy, ih h.2]

theorem searchGo_iff_exists (ps : List RPiece) :
    ∀ cs : List Char, searchGo ps cs = true ↔ ∃ i, matchTop ps (cs.drop i) = true := by
  intro cs
  induction cs with
  | nil =>
    simp only [searchGo, List.drop_nil]
    exact ⟨fun h => ⟨0, h⟩, fun ⟨_, h⟩ => h⟩
  | cons c rest ih =>
    simp only [searchGo, Bool.or_eq_true, ih]
    constructor
    · rintro (h | ⟨i, hi⟩)
      · exact ⟨0, h⟩
      · exact ⟨i + 1, hi⟩
    · rintro ⟨i, hi⟩
      match i with
      | 0 => exact Or.inl hi
      | i + 1 => exact Or.inr ⟨i, hi⟩

theorem filterMap_ite_eq_map_filter {α β : Type} (l : List α) (c : α → Bool)
    (g : α → β) :
    l.filterMap (fun i => if c i then some (g i) else none) =
      (l.filter c).map g := by
  induction l with
  | nil => rfl
  | cons a l ih =>
    rw [List.filterMap_cons, List.filter_cons]
    by_cases h : c a
    · simp [h, ih]
    · simp [h, ih]

theorem countP_range_getD {α : Type} (p : α → Bool) (d : α) :
    ∀ l : List α,
      (List.range l.length).countP (fun i => p (l.getD i d)) = l.countP p := by
  intro l
  induction l with
  | nil => rfl
  | cons a l ih =>
    rw [List.length_cons, List.range_succ_eq_map, List.countP_cons,
      List.countP_map, List.countP_cons]
    have : ((fun i => p ((a :: l).getD i d)) ∘ Nat.succ) =
        fun i => p (l.getD i d) := rfl
    rw [this, ih]
    rfl

theorem docRecords_eq_map_filter (ps : List RPiece) (lic : License) :
    docRecords ps lic =
      ((List.range (pySplitParas lic.licenseText).length).filter
          (fun i => paraHit ps ((pySplitParas lic.licenseText).getD i ""))).map
        (mkRecordAt lic.licenseId (pySplitParas lic.licenseText)) := by
  unfold docRecords recordAt
  exact filterMap_ite_eq_map_filter _ _ _

theorem length_docRecords (ps : List RPiece) (lic : License) :
    (docRecords ps lic).length =
      ((pySplitParas lic.licenseText).filter (paraHit ps)).length := by
  rw [docRecords_eq_map_filter, List.length_map, ← List.countP_eq_length_filter,
    ← List.countP_eq_length_filter]
  exact countP_range_getD (paraHit ps) "" (pySplitParas lic.licenseText)

theorem length_searchRecords (licenses : List License) (ps : List RPiece) :
    (searchRecords licenses ps).length = searchCount licenses ps := by
  unfold searchRecords searchCount
  rw [List.length_flatMap]
  apply congrArg List.sum
  apply List.map_congr_left
  intro lic _
  exact length_docRecords ps lic

/-! ### Claim theorems -/

/-- C1: after a zero-match search the output folder and the report artifact
do NOT disappear.  `results.csv` (holding the header row) was already
created inside the freshly made folder, so the `os.rmdir` at line 117 fails
on the non-empty directory; the resulting `OSError` is caught by `except
IOError` and reported as a write error.  The operator sees the no-results
message, but the folder and a header-only `results.csv` remain on disk —
contradicting the claim (and the code's own `# Clean up empty folder`
comment). -/
theorem c1_zero_match_leaves_folder_and_artifact :
    sessionStep [⟨"MIT", "hello world"⟩] "zzz" =
      .completed ⟨true, true, [csvHeader], [.noResults, .ioError], .normal⟩ := by
  rfl

/-- C3: a search term that fails to compile under the host's pattern syntax
terminates the whole process.  The `re.error` raised at the first
`re.search` call is caught by neither `except IOError` (line 119) nor
`except KeyboardInterrupt` (line 122), so the session does not continue to
the next prompt — contradicting the claim. -/
theorem c3_invalid_pattern_crashes_process :
    sessionStep [⟨"MIT", "hello world"⟩] "*" =
      .completed ⟨true, true, [csvHeader], [], .crashed⟩ := by
  rfl

/-- C2, counterexample: in the document `"\n\nhello"` the raw split is
`["", "hello"]`; the only paragraph preceding the matching one strips to
empty, so no non-empty preceding paragraph exists and the claim demands
`before = "N/A"` — but the emitted record carries `before = ""`. -/
theorem c2_counterexample :
    pySplitParas "\n\nhello" = ["", "hello"]
    ∧ pyStrip "" = ""
    ∧ search_and_save [⟨"D", "\n\nhello"⟩] "hello" =
        Except.ok ([⟨"D", "", "hello", "N/A"⟩], 1)
    ∧ ("" : String) ≠ "N/A" :=
  ⟨rfl, rfl, rfl, by decide⟩

/-- C2, amended: every emitted record's `before`/`after` fields are the
stripped *immediately adjacent raw* split segments — `"N/A"` exactly when
the matched paragraph is the first (resp. last) raw segment — rather than
the nearest non-empty paragraphs; the matched field itself is the stripped,
non-empty paragraph text. -/
theorem c2_amended_context_fields (licenses : List License) (term : String)
    (recs : List MatchRecord) (n : Nat)
    (h : search_and_save licenses term = .ok (recs, n)) :
    ∀ r ∈ recs, ∃ lic ∈ licenses, ∃ i : Nat,
      i < (pySplitParas lic.licenseText).length
      ∧ r.matched = pyStrip ((pySplitParas lic.licenseText).getD i "")
      ∧ r.matched ≠ ""
      ∧ r.before = (if 0 < i then
          pyStrip ((pySplitParas lic.licenseText).getD (i - 1) "") else "N/A")
      ∧ r.after = (if i < (pySplitParas lic.licenseText).length - 1 then
          pyStrip ((pySplitParas lic.licenseText).getD (i + 1) "") else "N/A") := by
  intro r hr
  unfold search_and_save at h
  cases hcp : compilePat (pyStrip term).data with
  | none =>
    rw [hcp] at h
    by_cases hn : licenses.any hasRealPara
    · simp [hn] at h
    · simp only [hn, if_false, Bool.false_eq_true] at h
      cases h
      simp at hr
  | some ps =>
    rw [hcp] at h
    cases h
    obtain ⟨lic, hlic, hr'⟩ := List.mem_flatMap.mp hr
    rw [docRecords_eq_map_filter] at hr'
    obtain ⟨i, hi, hrec⟩ := List.mem_map.mp hr'
    obtain ⟨hirange, hhit⟩ := List.mem_filter.mp hi
    rw [List.mem_range] at hirange
    refine ⟨lic, hlic, i, hirange, ?_, ?_, ?_, ?_⟩
    · rw [← hrec]; rfl
    · rw [← hrec]
      intro hemp
      have hemp' : pyStrip ((pySplitParas lic.licenseText).getD i "") = "" := hemp
      unfold paraHit at hhit
      rw [if_pos hemp'] at hhit
      exact Bool.false_ne_true hhit
    · rw [← hrec]; rfl
    · rw [← hrec]; rfl

/-- C2, witness for the amended theorem: applied to the one-document corpus
`a\n\nb` and the term `a`. -/
theorem c2_amended_context_fields_witness :
    ∃ lic ∈ [(⟨"L", "a\n\nb"⟩ : License)], ∃ i : Nat,
      i < (pySplitParas lic.licenseText).length
      ∧ (MatchRecord.matched ⟨"L", "N/A", "a", "b"⟩) =
          pyStrip ((pySplitParas lic.licenseText).getD i "")
      ∧ (MatchRecord.matched ⟨"L", "N/A", "a", "b"⟩) ≠ ""
      ∧ (MatchRecord.before ⟨"L", "N/A", "a", "b"⟩) = (if 0 < i then
          pyStrip ((pySplitParas lic.licenseText).getD (i - 1) "") else "N/A")
      ∧ (MatchRecord.after ⟨"L", "N/A", "a", "b"⟩) =
          (if i < (pySplitParas lic.licenseText).length - 1 then
            pyStrip ((pySplitParas lic.licenseText).getD (i + 1) "") else "N/A") :=
  c2_amended_context_fields [⟨"L", "a\n\nb"⟩] "a" [⟨"L", "N/A", "a", "b"⟩] 1 rfl
    ⟨"L", "N/A", "a", "b"⟩ (List.mem_singleton.mpr rfl)

/-- C7: the search term is handed to the matcher as a raw pattern, not
escaped to a literal: the term `a.c` compiles with `.` as the wildcard and
matches the paragraph `abc`, although `a.c` does not occur in `abc` as a
literal substring (case-insensitively). -/
theorem c7_raw_pattern_not_escaped :
    search_and_save [⟨"D", "abc"⟩] "a.c" = .ok ([⟨"D", "N/A", "abc", "N/A"⟩], 1)
    ∧ litOccursCI "a.c".data "abc".data = false
    ∧ compilePat (pyStrip "a.c").data =
        some [⟨.rchar 'a', false⟩, ⟨.rdot, false⟩, ⟨.rchar 'c', false⟩] :=
  ⟨rfl, by decide, rfl⟩

/-- C10: the term `***` is non-empty and not whitespace-only (so it is
accepted as a search term and is not the exit keyword), yet sanitization
removes all of it: the folder-name fragment is `""`, the derived output
location degenerates to the parent directory `../`, and the report path is
`../results.csv` — a file directly in the parent directory, with no
per-search folder. -/
theorem c10_degenerate_sanitized_folder :
    pyStrip "***" ≠ ""
    ∧ pyLowerStr "***" ≠ "exit"
    ∧ sanitize_for_foldername "***" = ""
    ∧ outputPathFor "***" = "../"
    ∧ filePathFor "***" = "../results.csv"
    ∧ filePathFor "***" = pyPathJoin ".." "results.csv" :=
  ⟨by decide, by decide, rfl, rfl, rfl, rfl⟩

/-- C4, counterexample: the header row the code writes (line 107) spells the
third column `Paragraph with Hit` with a lowercase `with`, so the first row
of a written report is not the claimed
`License ID, Paragraph Before, Paragraph With Hit, Paragraph After`. -/
theorem c4_counterexample :
    sessionStep [⟨"MIT", "hello world"⟩] "hello" =
      .completed ⟨true, true,
        [csvHeader, ["MIT", "N/A", "hello world", "N/A"]], [.success], .normal⟩
    ∧ csvHeader ≠
        ["License ID", "Paragraph Before", "Paragraph With Hit", "Paragraph After"] :=
  ⟨rfl, by decide⟩

/-- C4, amended: every written report consists of the fixed header row
`License ID, Paragraph Before, Paragraph with Hit, Paragraph After`
(lowercase `with`) followed by one row per MatchRecord in the order the
search engine produced them. -/
theorem c4_amended_report_rows (licenses : List License) (term : String)
    (recs : List MatchRecord) (n : Nat) (r : StepResult)
    (hs : search_and_save licenses term = .ok (recs, n))
    (ho : sessionStep licenses term = .completed r) :
    r.artifactRows = csvHeader :: recs.map recordRow := by
  unfold sessionStep at ho
  by_cases h1 : pyLowerStr term = "exit"
  · rw [if_pos h1] at ho; exact absurd ho (by simp)
  · rw [if_neg h1] at ho
    by_cases h2 : pyStrip term = ""
    · rw [if_pos h2] at ho; exact absurd ho (by simp)
    · rw [if_neg h2, hs] at ho
      simp only [List.isEmpty_cons, if_false, Bool.false_eq_true] at ho
      by_cases h3 : 0 < n
      · rw [if_pos h3] at ho
        cases ho
        rfl
      · rw [if_neg h3] at ho
        cases ho
        rfl

/-- C4, witness for the amended theorem: applied to a one-document corpus
and the term `hello`. -/
theorem c4_amended_report_rows_witness :
    StepResult.artifactRows
        ⟨true, true, [csvHeader, ["MIT", "N/A", "hello world", "N/A"]],
          [.success], .normal⟩ =
      csvHeader :: [(⟨"MIT", "N/A", "hello world", "N/A"⟩ : MatchRecord)].map recordRow :=
  c4_amended_report_rows [⟨"MIT", "hello world"⟩] "hello"
    [⟨"MIT", "N/A", "hello world", "N/A"⟩] 1
    ⟨true, true, [csvHeader, ["MIT", "N/A", "hello world", "N/A"]], [.success], .normal⟩
    rfl rfl

/-- C5: the count returned by `search_and_save` equals the number of
paragraphs across all documents on which the match branch fires, and equals
the number of emitted rows; a paragraph in which the pattern occurs at two
distinct positions (here `abc` at offsets 0 and 4 of `abc abc`) still
contributes exactly 1. -/
theorem c5_match_count :
    (∀ (licenses : List License) (term : String) (ps : List RPiece)
        (recs : List MatchRecord) (n : Nat),
      compilePat (pyStrip term).data = some ps →
      search_and_save licenses term = .ok (recs, n) →
      n = (licenses.map
            (fun lic =>
              ((pySplitParas lic.licenseText).filter (paraHit ps)).length)).sum
      ∧ n = recs.length)
    ∧ compilePat (pyStrip "abc").data =
        some [⟨.rchar 'a', false⟩, ⟨.rchar 'b', false⟩, ⟨.rchar 'c', false⟩]
    ∧ matchTop [⟨.rchar 'a', false⟩, ⟨.rchar 'b', false⟩, ⟨.rchar 'c', false⟩]
        ((pyStrip "abc abc").data.drop 0) = true
    ∧ matchTop [⟨.rchar 'a', false⟩, ⟨.rchar 'b', false⟩, ⟨.rchar 'c', false⟩]
        ((pyStrip "abc abc").data.drop 4) = true
    ∧ search_and_save [⟨"D", "abc abc"⟩] "abc" =
        .ok ([⟨"D", "N/A", "abc abc", "N/A"⟩], 1) := by
  refine ⟨?_, rfl, rfl, rfl, rfl⟩
  intro licenses term ps recs n hcp hs
  unfold search_and_save at hs
  rw [hcp] at hs
  cases hs
  exact ⟨rfl, (length_searchRecords licenses ps).symm⟩

/-- C5, witness: the general count characterization applied to the
`abc abc` corpus. -/
theorem c5_match_count_witness :
    1 = ([(⟨"D", "abc abc"⟩ : License)].map
          (fun lic =>
            ((pySplitParas lic.licenseText).filter
              (paraHit [⟨.rchar 'a', false⟩, ⟨.rchar 'b', false⟩,
                ⟨.rchar 'c', false⟩])).length)).sum
    ∧ 1 = [(⟨"D", "N/A", "abc abc", "N/A"⟩ : MatchRecord)].length :=
  c5_match_count.1 [⟨"D", "abc abc"⟩] "abc"
    [⟨.rchar 'a', false⟩, ⟨.rchar 'b', false⟩, ⟨.rchar 'c', false⟩]
    [⟨"D", "N/A", "abc abc", "N/A"⟩] 1 rfl rfl

/-- C6: matching is case-insensitive (texts with equal ASCII lowercasings
match identically), a non-empty paragraph matches exactly when the pattern
matches at some position of its trimmed text, and a paragraph that trims to
empty never matches. -/
theorem c6_matching_semantics :
    (∀ (ps : List RPiece) (xs ys : List Char),
        xs.map lowerChar = ys.map lowerChar → searchGo ps xs = searchGo ps ys)
    ∧ (∀ (ps : List RPiece) (p : String),
        paraHit ps p = true ↔
          pyStrip p ≠ "" ∧ ∃ i, matchTop ps ((pyStrip p).data.drop i) = true)
    ∧ (∀ (ps : List RPiece) (p : String), pyStrip p = "" → paraHit ps p = false) := by
  refine ⟨fun ps xs ys h => searchGo_congr ps h, ?_, ?_⟩
  · intro ps p
    unfold paraHit
    by_cases hemp : pyStrip p = ""
    · simp [hemp]
    · rw [if_neg hemp, searchGo_iff_exists]
      simp [hemp]
  · intro ps p hemp
    unfold paraHit
    rw [if_pos hemp]

/-- C6, witness: `A` and `a` match identically, and the paragraph
`" a "` matches the literal pattern `a` via a position of its trimmed
text. -/
theorem c6_matching_semantics_witness :
    searchGo [⟨.rchar 'a', false⟩] ['A'] = searchGo [⟨.rchar 'a', false⟩] ['a']
    ∧ paraHit [⟨.rchar 'a', false⟩] " a " = true :=
  ⟨c6_matching_semantics.1 [⟨.rchar 'a', false⟩] ['A'] ['a'] rfl,
   (c6_matching_semantics.2.1 [⟨.rchar 'a', false⟩] " a ").mpr
     ⟨by decide, 0, by decide⟩⟩

/-- C8: the loader does NOT survive every per-file read failure.  A missing
directory yields the designated `None`, and a file failing with `IOError`
is indeed skipped with the others still loaded; but a `.txt` file whose
bytes are not valid UTF-8 raises `UnicodeDecodeError` — a `ValueError`,
which the `except IOError` at line 31 does not catch — and the exception
propagates out of `load_local_licenses`, aborting the whole load and
ending the process.  The same listing with the bad file failing as an
`IOError` instead loads exactly the two good files. -/
theorem c8_encoding_error_aborts_load :
    load_local_licenses
        (some [⟨"a.txt", .ok "A"⟩, ⟨"bad.txt", .decodeError⟩, ⟨"b.txt", .ok "B"⟩]) =
      .error ()
    ∧ load_local_licenses
        (some [⟨"a.txt", .ok "A"⟩, ⟨"bad.txt", .ioError⟩, ⟨"b.txt", .ok "B"⟩]) =
      .ok (some [⟨"a", "A"⟩, ⟨"b", "B"⟩])
    ∧ load_local_licenses none = .ok none :=
  ⟨rfl, rfl, rfl⟩

/-- C9: for a fixed corpus and term, two runs of the search return the same
result; records of an earlier part of the corpus precede those of a later
part (documents are processed in loader order); and within one document the
records are the match-building map applied to a strictly increasing list of
paragraph indices (paragraphs in original segmenter order). -/
theorem c9_deterministic_order :
    (∀ (licenses : List License) (term : String)
        (o1 o2 : Except Unit (List MatchRecord × Nat)),
      o1 = search_and_save licenses term → o2 = search_and_save licenses term →
      o1 = o2)
    ∧ (∀ (l1 l2 : List License) (ps : List RPiece),
        searchRecords (l1 ++ l2) ps = searchRecords l1 ps ++ searchRecords l2 ps)
    ∧ (∀ (ps : List RPiece) (lic : License),
        docRecords ps lic =
          ((List.range (pySplitParas lic.licenseText).length).filter
              (fun i => paraHit ps ((pySplitParas lic.licenseText).getD i ""))).map
            (mkRecordAt lic.licenseId (pySplitParas lic.licenseText))
        ∧ List.Pairwise (· < ·)
            ((List.range (pySplitParas lic.licenseText).length).filter
              (fun i => paraHit ps ((pySplitParas lic.licenseText).getD i "")))) := by
  refine ⟨?_, ?_, ?_⟩
  · intro licenses term o1 o2 h1 h2
    rw [h1, h2]
  · intro l1 l2 ps
    unfold searchRecords
    exact List.flatMap_append l1 l2 (docRecords ps)
  · intro ps lic
    exact ⟨docRecords_eq_map_filter ps lic,
      List.Pairwise.sublist (List.filter_sublist _) (List.pairwise_lt_range _)⟩

/-- C9, witness: two runs on a concrete corpus and term agree. -/
theorem c9_deterministic_order_witness :
    search_and_save [⟨"MIT", "hi"⟩] "hi" = search_and_save [⟨"MIT", "hi"⟩] "hi" :=
  c9_deterministic_order.1 [⟨"MIT", "hi"⟩] "hi" _ _ rfl rfl

end Scrape
